import Mathlib

/-!
Verification of the chat repository's message delivery and synchronization
layer, as a shallow embedding of the TypeScript source.

Sections, in dependency order:
1. Client message sync (`src/lib/hooks/messageSync.ts`): `SyncMessage`,
   `mergeAndDeduplicate`, the in-memory `MessageCache`.
2. Generic poller (`usePolling`): the fetch-start discipline of its
   scheduling loop, as a state machine.
3. Server message store and conversation registry
   (`src/lib/db/models/Message.ts`, `src/lib/db/models/Conversation.ts`,
   `src/lib/db/index.ts`, `src/lib/services/conversation.ts`) and the
   API routes (`src/app/api/messages/route.ts`).
-/

namespace Chat

/-! ## Section 1: message sync utilities (`src/lib/hooks/messageSync.ts`) -/

/-- Embeds the `SyncMessage` interface.  The source compares identities via
`_id.toString()`; we carry the identity directly as the string `_id`.
`createdAt`/`updatedAt` are `new Date(...).getTime()` millisecond values,
embedded as `Nat`. -/
structure SyncMessage where
  _id : String
  conversationId : String
  content : String
  senderId : String
  recipientId : String
  status : String
  createdAt : Nat
  updatedAt : Nat
  seenAt : Option Nat
  imageUrl : Option String
  deriving DecidableEq, Repr

/-- The comparator `(a, b) => new Date(b.createdAt).getTime() - new Date(a.createdAt).getTime()`
used by `mergeAndDeduplicate`: `a` sorts no later than `b` exactly when the
comparator is ≤ 0, i.e. when `b.createdAt ≤ a.createdAt` (creation-time
descending). -/
def createdGe (a b : SyncMessage) : Prop := b.createdAt ≤ a.createdAt

instance : DecidableRel createdGe := fun a b => Nat.decLe b.createdAt a.createdAt

instance : IsTotal SyncMessage createdGe :=
  ⟨fun a b => by unfold createdGe; exact Nat.le_total b.createdAt a.createdAt⟩

instance : IsTrans SyncMessage createdGe := ⟨fun _ _ _ h h2 => Nat.le_trans h2 h⟩

/-- Embeds the deduplication filter
`allMessages.filter((message, index, self) => index === self.findIndex(m => m._id.toString() === message._id.toString()))`:
an element is kept exactly when it is the first occurrence of its `_id`.
`seen` accumulates the identities already emitted to the left of the cursor. -/
def dedupFirstAux : List SyncMessage → List String → List SyncMessage
  | [], _ => []
  | x :: xs, seen =>
    if x._id ∈ seen then dedupFirstAux xs seen
    else x :: dedupFirstAux xs (x._id :: seen)

/-- Keep the first occurrence of every identity, in order. -/
def dedupFirst (l : List SyncMessage) : List SyncMessage := dedupFirstAux l []

/-- The set of identities already emitted after scanning `l` with initial
set `seen` (mirrors the accumulator of `dedupFirstAux`). -/
def seenAfter : List SyncMessage → List String → List String
  | [], seen => seen
  | x :: xs, seen => seenAfter xs (if x._id ∈ seen then seen else x._id :: seen)

/-- JavaScript `Array.prototype.sort` is a stable sort; with the
creation-time-descending comparator its output is the unique stable
descending reordering, which insertion sort computes. -/
def sortByCreatedAtDesc (l : List SyncMessage) : List SyncMessage :=
  List.insertionSort createdGe l

/-- Embeds `mergeAndDeduplicate(existing, incoming)` from
`src/lib/hooks/messageSync.ts` lines 126–138: concatenate (existing first),
keep the first occurrence of each `_id`, then sort by creation time
descending. -/
def mergeAndDeduplicate (existing incoming : List SyncMessage) : List SyncMessage :=
  sortByCreatedAtDesc (dedupFirst (existing ++ incoming))

/-- Embeds the `MessageSyncData` interface (the cache entry shape). -/
structure MessageSyncData where
  id : String
  conversationId : String
  content : String
  senderId : String
  recipientId : String
  status : String
  createdAt : Nat
  updatedAt : Nat
  seenAt : Option Nat
  imageUrl : Option String
  deriving DecidableEq, Repr

/-- JavaScript `list.slice(-100)`: the last `min(100, list.length)` elements. -/
def jsSliceLastHundred (l : List MessageSyncData) : List MessageSyncData :=
  l.drop (l.length - 100)

/-- Embeds the `MessageCache` class field `cache : Map<string, MessageSyncData[]>`
as an association list keyed by conversation id; the head binding for a key
shadows older ones, matching `Map.set`/`Map.get` observations. -/
structure MessageCache where
  cache : List (String × List MessageSyncData)
  deriving DecidableEq, Repr

/-- Embeds `getCache(conversationId)`: `this.cache.get(conversationId) || []`. -/
def MessageCache.getCache (c : MessageCache) (conversationId : String) : List MessageSyncData :=
  (c.cache.lookup conversationId).getD []

/-- Embeds `setCache(conversationId, messages)` from
`src/lib/hooks/messageSync.ts` lines 66–70: truncate with `slice(-100)` and
store under the conversation id. -/
def MessageCache.setCache (c : MessageCache) (conversationId : String)
    (messages : List MessageSyncData) : MessageCache :=
  ⟨(conversationId, jsSliceLastHundred messages) :: c.cache⟩

/-! ## Section 2: the generic poller (`usePolling`, `src/unnamed/part_027`)

The scheduling loop: `setInterval(poll, interval)` invokes `poll` on every
tick.  `poll` returns early only when `enabled` is false (line 61); it never
consults any in-flight flag before calling `fetchFn`, so each tick that finds
the subscriber enabled starts a fetch unconditionally.  The state machine
records the control facts the claim is about: the enabled flag and the number
of outstanding (started, not yet resolved) fetch invocations. -/

structure PollerState where
  enabled : Bool
  inFlight : Nat
  deriving DecidableEq, Repr

/-- Embeds the body of `poll` up to the suspension point: `if (!enabled)
return`, then `await fetchFn()` starts a fetch. -/
def poll (s : PollerState) : PollerState :=
  if s.enabled then { s with inFlight := s.inFlight + 1 } else s

/-- One firing of the `setInterval` timer: it calls `poll` unconditionally. -/
def intervalTick (s : PollerState) : PollerState := poll s

/-- A fetch resolving (the `await` completing): one outstanding call retires. -/
def fetchResolve (s : PollerState) : PollerState := { s with inFlight := s.inFlight - 1 }

/-! ## Section 3: server message store and conversation registry -/

/-- Embeds the `MessageStatus` enum of `src/lib/db/models/Message.ts`. -/
inductive MessageStatus where
  | sent
  | delivered
  | seen
  deriving DecidableEq, Repr

/-- Position of a status along SENT → DELIVERED → SEEN. -/
def statusRank : MessageStatus → Nat
  | .sent => 0
  | .delivered => 1
  | .seen => 2

/-- Embeds a persisted `Message` document.  ObjectIds are embedded as their
hex strings (equality of ObjectIds is equality of these strings); timestamps
are millisecond `Nat`s; the optional `seenAt` field is `Option Nat`. -/
structure StoredMessage where
  id : String
  conversationId : String
  senderId : String
  recipientId : String
  content : String
  imageUrl : Option String
  status : MessageStatus
  seenAt : Option Nat
  createdAt : Nat
  updatedAt : Nat
  deriving DecidableEq, Repr

/-- Embeds the instance method `markAsSeen` (`Message.ts` lines 83–89):
if the status is not SEEN, set status SEEN and `seenAt` and save (the save
refreshes `updatedAt`); otherwise do nothing. -/
def markAsSeen (now : Nat) (m : StoredMessage) : StoredMessage :=
  if m.status ≠ MessageStatus.seen then
    { m with status := MessageStatus.seen, seenAt := some now, updatedAt := now }
  else m

/-- Embeds the instance method `markAsDelivered` (`Message.ts` lines 92–97):
only a SENT message moves to DELIVERED. -/
def markAsDelivered (now : Nat) (m : StoredMessage) : StoredMessage :=
  if m.status = MessageStatus.sent then
    { m with status := MessageStatus.delivered, updatedAt := now }
  else m

/-- The per-document effect of the `updateMany` in the static
`markMessagesAsSeen` (`Message.ts` lines 129–145): a document matching
`{conversationId, recipientId: userId, status: {$ne: SEEN}}` receives
`{status: SEEN, seenAt}`; any other document is untouched. -/
def markSeenBatchStep (conversationId userId : String) (now : Nat)
    (m : StoredMessage) : StoredMessage :=
  if m.conversationId = conversationId ∧ m.recipientId = userId ∧
      m.status ≠ MessageStatus.seen then
    { m with status := MessageStatus.seen, seenAt := some now, updatedAt := now }
  else m

/-- Embeds the static `markMessagesAsSeen` applied to a message log. -/
def markMessagesAsSeen (conversationId userId : String) (now : Nat)
    (msgs : List StoredMessage) : List StoredMessage :=
  msgs.map (markSeenBatchStep conversationId userId now)

/-- The invariant of the spec data model: the seen timestamp is set iff the
status is SEEN. -/
def seenAtIffSeen (m : StoredMessage) : Prop :=
  m.seenAt.isSome ↔ m.status = MessageStatus.seen

instance (m : StoredMessage) : Decidable (seenAtIffSeen m) := by
  unfold seenAtIffSeen; infer_instance

/-- Embeds a `Conversation` document (`src/lib/db/models/Conversation.ts`). -/
structure Conversation where
  id : String
  participantIds : List String
  lastMessage : Option String
  lastMessageTime : Option Nat
  deriving DecidableEq, Repr

/-- Embeds `[userId1, userId2].sort()` (`Conversation.ts` line 81): the
default JavaScript sort compares the string forms; ObjectId hex strings of
equal length sort lexicographically, which is Lean's `String` order. -/
def sortPair (a b : String) : List String :=
  if a ≤ b then [a, b] else [b, a]

/-- The query `{ participantIds: { $all: sortedIds, $size: 2 } }`: the
document's participant array has size 2 and contains every member of
`sorted`. -/
def pairMatches (sorted : List String) (c : Conversation) : Bool :=
  c.participantIds.length == 2 && sorted.all (fun x => c.participantIds.contains x)

/-- The conversation collection with its ObjectId supply. -/
structure ConversationStore where
  convs : List Conversation
  nextOid : Nat
  deriving DecidableEq, Repr

/-- Database-level errors visible to this model. -/
inductive DbError where
  | duplicateKey
  deriving DecidableEq, Repr

/-- Embeds `conversation.save()` against the unique index on the sorted
participant pair (`Conversation.ts` lines 50–56): the insert is rejected
with a duplicate-key error when a document with the same participant pair is
already present, else the document is appended. -/
def saveConversation (store : ConversationStore) (c : Conversation) :
    Except DbError (Conversation × ConversationStore) :=
  if store.convs.any (fun c0 => c0.participantIds == c.participantIds) then
    Except.error DbError.duplicateKey
  else
    Except.ok (c, { store with convs := store.convs ++ [c], nextOid := store.nextOid + 1 })

/-- Embeds the static `findOrCreateConversation` (`Conversation.ts` lines
76–98).  The two store arguments are the collection contents at the `findOne`
and at the `save`; they differ exactly when a concurrent call inserts the
pair between the two suspension points.  The source wraps neither call in a
try/catch, so a duplicate-key rejection from `save` propagates to the caller
(`Except.error`). -/
def findOrCreateConversation (lookupStore saveStore : ConversationStore)
    (userId1 userId2 : String) : Except DbError (Conversation × ConversationStore) :=
  let sorted := sortPair userId1 userId2
  match lookupStore.convs.find? (pairMatches sorted) with
  | some c => Except.ok (c, saveStore)
  | none =>
    saveConversation saveStore
      { id := toString saveStore.nextOid, participantIds := sorted,
        lastMessage := none, lastMessageTime := none }

/-- The whole server state behind the API routes. -/
structure ServerState where
  users : List String
  convStore : ConversationStore
  messages : List StoredMessage
  nextMsgOid : Nat
  deriving DecidableEq, Repr

/-- Embeds `validateUsersExist` (`src/lib/services/conversation.ts` lines
109–136): both users must exist and be distinct; the checks run in source
order and the first failing one provides the error message. -/
def validateUsersExist (st : ServerState) (user1Id user2Id : String) : Option String :=
  if user1Id ∉ st.users then some "User 1 not found"
  else if user2Id ∉ st.users then some "User 2 not found"
  else if user1Id = user2Id then some "Cannot create conversation with yourself"
  else none

/-- Embeds `getConversationForUser` (`conversation.ts` lines 62–89): find the
conversation by id, return it only when the given user is a participant. -/
def getConversationForUser (st : ServerState) (conversationId userId : String) :
    Option Conversation :=
  match st.convStore.convs.find? (fun c => c.id == conversationId) with
  | none => none
  | some c => if c.participantIds.contains userId then some c else none

/-- Embeds `isUserParticipant` (`conversation.ts` lines 44–57). -/
def isUserParticipant (st : ServerState) (conversationId userId : String) : Bool :=
  match st.convStore.convs.find? (fun c => c.id == conversationId) with
  | none => false
  | some c => c.participantIds.contains userId

/-- Embeds `sendMessage` from `src/lib/db/index.ts` lines 66–100: build the
message with status SENT, save it, then `findByIdAndUpdate` the conversation's
last-message pointer.  No participant validation happens here (the static
`validateMessage` of `Message.ts` has no caller in the repository). -/
def sendMessage (st : ServerState) (conversationId senderId recipientId content : String)
    (imageUrl : Option String) (now : Nat) : StoredMessage × ServerState :=
  let m : StoredMessage :=
    { id := toString st.nextMsgOid, conversationId := conversationId,
      senderId := senderId, recipientId := recipientId, content := content,
      imageUrl := imageUrl, status := MessageStatus.sent, seenAt := none,
      createdAt := now, updatedAt := now }
  let convs := st.convStore.convs.map fun c =>
    if c.id == conversationId then
      { c with lastMessage := some m.id, lastMessageTime := some m.createdAt }
    else c
  let st2 : ServerState :=
    { st with
      messages := st.messages ++ [m]
      nextMsgOid := st.nextMsgOid + 1
      convStore := { st.convStore with convs := convs } }
  (m, st2)

/-- JavaScript `content.trim()`: strip leading and trailing whitespace. -/
def jsTrim (s : String) : String :=
  ⟨((s.toList.dropWhile Char.isWhitespace).reverse.dropWhile Char.isWhitespace).reverse⟩

/-- Responses of `POST /api/messages`. -/
inductive PostResult where
  | ok (status : Nat) (message : StoredMessage)
  | err (status : Nat) (message : String)
  deriving DecidableEq, Repr

/-- Embeds the `POST` handler of `src/app/api/messages/route.ts` (first
handler, lines 14–135) after successful authentication (`senderId` is the
token's user id).  The body checks run in source order; `!recipientId` and
`!content` are the JavaScript falsiness tests on strings; a missing or empty
`conversationId` is falsy and triggers the get-or-create branch.  The outer
try/catch turns any thrown error into a 500. -/
def postMessages (st : ServerState) (senderId recipientId content : String)
    (imageUrl : Option String) (conversationId : Option String) (now : Nat) :
    PostResult × ServerState :=
  if recipientId = "" ∨ content = "" then
    (PostResult.err 400 "recipientId and content are required", st)
  else if (jsTrim content).length = 0 then
    (PostResult.err 400 "Message content cannot be empty", st)
  else if content.length > 1000 then
    (PostResult.err 400 "Message content cannot exceed 1000 characters", st)
  else
    match validateUsersExist st senderId recipientId with
    | some e => (PostResult.err 400 e, st)
    | none =>
      match conversationId with
      | none =>
        match findOrCreateConversation st.convStore st.convStore senderId recipientId with
        | Except.error _ => (PostResult.err 500 "Failed to send message", st)
        | Except.ok (conv, cs) =>
          let st1 := { st with convStore := cs }
          let r := sendMessage st1 conv.id senderId recipientId (jsTrim content) imageUrl now
          (PostResult.ok 201 r.1, r.2)
      | some cid =>
        if cid = "" then
          match findOrCreateConversation st.convStore st.convStore senderId recipientId with
          | Except.error _ => (PostResult.err 500 "Failed to send message", st)
          | Except.ok (conv, cs) =>
            let st1 := { st with convStore := cs }
            let r := sendMessage st1 conv.id senderId recipientId (jsTrim content) imageUrl now
            (PostResult.ok 201 r.1, r.2)
        else
          match getConversationForUser st cid senderId with
          | none => (PostResult.err 400 "Invalid conversation ID or user not participant", st)
          | some _ =>
            let r := sendMessage st cid senderId recipientId (jsTrim content) imageUrl now
            (PostResult.ok 201 r.1, r.2)

/-- JavaScript runtime errors visible to this model. -/
inductive JsError where
  | typeError
  deriving DecidableEq, Repr

/-- The expression `message.recipientId._id.toString().equals(userId)` at
`src/app/api/messages/route.ts` line 296: `toString()` yields a primitive
string, and primitive strings have no `equals` method, so evaluating the
call throws `TypeError` at runtime. -/
def jsStringDotEquals (_s _userId : String) : Except JsError Bool :=
  Except.error JsError.typeError

/-- Responses of `PATCH /api/messages/[id]/seen`. -/
inductive PatchResult where
  | ok (status : Nat) (message : StoredMessage) (alreadySeen : Bool)
  | err (status : Nat) (message : String)
  deriving DecidableEq, Repr

/-- Embeds the `PATCH` mark-message-seen handler of
`src/app/api/messages/route.ts` (lines 248–358) after successful
authentication.  Steps in source order: find the message (404), participant
check (403), the recipient check, the already-seen short-circuit, then
`markAsSeen`.  The recipient check evaluates
`message.recipientId._id.toString().equals(userId)`, whose thrown `TypeError`
is absorbed by the outer try/catch into a 500 response. -/
def patchMarkMessageSeen (st : ServerState) (userId messageId : String) (now : Nat) :
    PatchResult × ServerState :=
  match st.messages.find? (fun m => m.id == messageId) with
  | none => (PatchResult.err 404 "Message not found", st)
  | some msg =>
    if ¬ isUserParticipant st msg.conversationId userId then
      (PatchResult.err 403 "You are not a participant in this conversation", st)
    else
      match jsStringDotEquals msg.recipientId userId with
      | Except.error _ => (PatchResult.err 500 "Failed to mark message as seen", st)
      | Except.ok isRecipient =>
        if ¬ isRecipient then
          (PatchResult.err 403 "You can only mark messages sent to you as seen", st)
        else if msg.status = MessageStatus.seen then
          (PatchResult.ok 200 msg true, st)
        else
          let m2 := markAsSeen now msg
          (PatchResult.ok 200 m2 false,
            { st with messages := st.messages.map fun m => if m.id == msg.id then m2 else m })

/-! ### Concrete fixtures used by counterexamples and witnesses -/

/-- A cache entry whose timestamps are `t` and whose other fields are blank. -/
def cacheMsgAt (t : Nat) : MessageSyncData :=
  { id := "", conversationId := "", content := "", senderId := "", recipientId := "",
    status := "", createdAt := t, updatedAt := t, seenAt := none, imageUrl := none }

/-- 101 cache entries ordered newest first (creation times 100 down to 0),
the order in which `useMessages` hands lists to the cache. -/
def newestFirst101 : List MessageSyncData :=
  (List.range 101).map fun k => cacheMsgAt (100 - k)

/-- An existing (locally held) copy of message identity "1". -/
def syncOld : SyncMessage :=
  { _id := "1", conversationId := "c", content := "old", senderId := "a",
    recipientId := "b", status := "sent", createdAt := 5, updatedAt := 5,
    seenAt := none, imageUrl := none }

/-- An incoming (server-fetched) copy of the same identity "1". -/
def syncNew : SyncMessage :=
  { _id := "1", conversationId := "c", content := "new", senderId := "a",
    recipientId := "b", status := "seen", createdAt := 5, updatedAt := 9,
    seenAt := some 8, imageUrl := none }

/-- The conversation between users "a" and "b" (sorted pair). -/
def convAB : Conversation :=
  { id := "0", participantIds := ["a", "b"], lastMessage := none, lastMessageTime := none }

/-- An unseen message from "a" to "b" in conversation "c0". -/
def msgAtoB : StoredMessage :=
  { id := "m0", conversationId := "c0", senderId := "a", recipientId := "b",
    content := "hi", imageUrl := none, status := MessageStatus.sent, seenAt := none,
    createdAt := 0, updatedAt := 0 }

/-- Server state for the mark-seen scenario: users "a" and "b", their
conversation "c0", and one unseen message addressed to "b". -/
def stMarkSeen : ServerState :=
  { users := ["a", "b"],
    convStore := ⟨[{ id := "c0", participantIds := ["a", "b"],
                     lastMessage := none, lastMessageTime := none }], 1⟩,
    messages := [msgAtoB], nextMsgOid := 1 }

/-- Server state for the send scenario: users "a", "b", "c" and the
conversation "c0" whose participants are "a" and "b" only. -/
def stSend : ServerState :=
  { users := ["a", "b", "c"],
    convStore := ⟨[{ id := "c0", participantIds := ["a", "b"],
                     lastMessage := none, lastMessageTime := none }], 1⟩,
    messages := [], nextMsgOid := 0 }

/-- The message the send scenario persists: sender "a", recipient "c". -/
def msgAtoC : StoredMessage :=
  { id := "0", conversationId := "c0", senderId := "a", recipientId := "c",
    content := "hi", imageUrl := none, status := MessageStatus.sent, seenAt := none,
    createdAt := 5, updatedAt := 5 }

end Chat

namespace Chat

/-! Supporting lemmas about `dedupFirstAux` (shared by several results). -/

theorem mem_dedupFirstAux {m : SyncMessage} :
    ∀ {l : List SyncMessage} {seen : List String},
      m ∈ dedupFirstAux l seen → m ∈ l ∧ m._id ∉ seen := by
  intro l
  induction l with
  | nil => intro seen h; simp [dedupFirstAux] at h
  | cons x xs ih =>
    intro seen h
    by_cases hx : x._id ∈ seen
    · simp only [dedupFirstAux, if_pos hx] at h
      obtain ⟨hmem, hns⟩ := ih h
      exact ⟨List.mem_cons_of_mem _ hmem, hns⟩
    · simp only [dedupFirstAux, if_neg hx] at h
      rcases List.mem_cons.1 h with rfl | h2
      · exact ⟨List.mem_cons_self _ _, hx⟩
      · obtain ⟨hmem, hns⟩ := ih h2
        refine ⟨List.mem_cons_of_mem _ hmem, fun hc => hns ?_⟩
        exact List.mem_cons_of_mem _ hc

theorem pairwise_ne_dedupFirstAux :
    ∀ (l : List SyncMessage) (seen : List String),
      (dedupFirstAux l seen).Pairwise (fun a b => a._id ≠ b._id) := by
  intro l
  induction l with
  | nil => intro seen; simp [dedupFirstAux]
  | cons x xs ih =>
    intro seen
    by_cases hx : x._id ∈ seen
    · simpa only [dedupFirstAux, if_pos hx] using ih seen
    · simp only [dedupFirstAux, if_neg hx]
      refine List.Pairwise.cons ?_ (ih (x._id :: seen))
      intro m hm heq
      have := (mem_dedupFirstAux hm).2
      exact this (heq ▸ List.mem_cons_self _ _)

theorem exists_mem_dedupFirstAux_of_id {d : String} :
    ∀ {l : List SyncMessage} {seen : List String},
      d ∉ seen → (∃ m ∈ l, m._id = d) →
      ∃ m ∈ dedupFirstAux l seen, m._id = d := by
  intro l
  induction l with
  | nil => intro seen _ h; simp at h
  | cons x xs ih =>
    intro seen hd h
    by_cases hx : x._id ∈ seen
    · simp only [dedupFirstAux, if_pos hx]
      rcases h with ⟨m, hm, hid⟩
      rcases List.mem_cons.1 hm with rfl | hm2
      · exact absurd (hid ▸ hx) hd
      · exact ih hd ⟨m, hm2, hid⟩
    · simp only [dedupFirstAux, if_neg hx]
      by_cases hdx : x._id = d
      · exact ⟨x, List.mem_cons_self _ _, hdx⟩
      · rcases h with ⟨m, hm, hid⟩
        rcases List.mem_cons.1 hm with rfl | hm2
        · exact absurd hid hdx
        · have hd2 : d ∉ x._id :: seen := by
            intro hc
            rcases List.mem_cons.1 hc with hc1 | hc2
            · exact hdx hc1.symm
            · exact hd hc2
          obtain ⟨m2, hm2d, hid2⟩ := ih hd2 ⟨m, hm2, hid⟩
          exact ⟨m2, List.mem_cons_of_mem _ hm2d, hid2⟩

theorem dedupFirstAux_append :
    ∀ (l₁ l₂ : List SyncMessage) (seen : List String),
      dedupFirstAux (l₁ ++ l₂) seen =
        dedupFirstAux l₁ seen ++ dedupFirstAux l₂ (seenAfter l₁ seen) := by
  intro l₁
  induction l₁ with
  | nil => intro l₂ seen; simp [dedupFirstAux, seenAfter]
  | cons x xs ih =>
    intro l₂ seen
    by_cases hx : x._id ∈ seen
    · simp only [List.cons_append, dedupFirstAux, if_pos hx, seenAfter, List.append_eq, ih]
    · simp only [List.cons_append, dedupFirstAux, if_neg hx, seenAfter, List.append_eq, ih]

theorem mem_seenAfter {d : String} :
    ∀ {l : List SyncMessage} {seen : List String},
      d ∈ seenAfter l seen ↔ d ∈ seen ∨ ∃ m ∈ l, m._id = d := by
  intro l
  induction l with
  | nil => intro seen; simp [seenAfter]
  | cons x xs ih =>
    intro seen
    by_cases hx : x._id ∈ seen
    · simp only [seenAfter, if_pos hx, ih]
      constructor
      · rintro (h | ⟨m, hm, hid⟩)
        · exact Or.inl h
        · exact Or.inr ⟨m, List.mem_cons_of_mem _ hm, hid⟩
      · rintro (h | ⟨m, hm, hid⟩)
        · exact Or.inl h
        · rcases List.mem_cons.1 hm with rfl | hm2
          · exact Or.inl (hid ▸ hx)
          · exact Or.inr ⟨m, hm2, hid⟩
    · simp only [seenAfter, if_neg hx, ih]
      constructor
      · rintro (h | ⟨m, hm, hid⟩)
        · rcases List.mem_cons.1 h with rfl | h2
          · exact Or.inr ⟨x, List.mem_cons_self _ _, rfl⟩
          · exact Or.inl h2
        · exact Or.inr ⟨m, List.mem_cons_of_mem _ hm, hid⟩
      · rintro (h | ⟨m, hm, hid⟩)
        · exact Or.inl (List.mem_cons_of_mem _ h)
        · rcases List.mem_cons.1 hm with rfl | hm2
          · exact Or.inl (hid ▸ List.mem_cons_self _ _)
          · exact Or.inr ⟨m, hm2, hid⟩

theorem dedupFirstAux_eq_nil_of_seen :
    ∀ {l : List SyncMessage} {seen : List String},
      (∀ m ∈ l, m._id ∈ seen) → dedupFirstAux l seen = [] := by
  intro l
  induction l with
  | nil => intro seen _; rfl
  | cons x xs ih =>
    intro seen h
    have hx : x._id ∈ seen := h x (List.mem_cons_self _ _)
    simp only [dedupFirstAux, if_pos hx]
    exact ih fun m hm => h m (List.mem_cons_of_mem _ hm)

theorem dedupFirstAux_eq_self :
    ∀ {l : List SyncMessage} {seen : List String},
      l.Pairwise (fun a b => a._id ≠ b._id) → (∀ m ∈ l, m._id ∉ seen) →
      dedupFirstAux l seen = l := by
  intro l
  induction l with
  | nil => intro seen _ _; rfl
  | cons x xs ih =>
    intro seen hp hns
    have hx : x._id ∉ seen := hns x (List.mem_cons_self _ _)
    simp only [dedupFirstAux, if_neg hx]
    congr 1
    refine ih (List.Pairwise.of_cons hp) ?_
    intro m hm hc
    rcases List.mem_cons.1 hc with hc1 | hc2
    · exact (List.rel_of_pairwise_cons hp hm) hc1.symm
    · exact hns m (List.mem_cons_of_mem _ hm) hc2

theorem countP_dedupFirstAux_eq_one {d : String} :
    ∀ {l : List SyncMessage} {seen : List String},
      d ∉ seen → (∃ m ∈ l, m._id = d) →
      (dedupFirstAux l seen).countP (fun m => m._id == d) = 1 := by
  intro l
  induction l with
  | nil => intro seen _ h; simp at h
  | cons x xs ih =>
    intro seen hd h
    by_cases hx : x._id ∈ seen
    · simp only [dedupFirstAux, if_pos hx]
      rcases h with ⟨m, hm, hid⟩
      rcases List.mem_cons.1 hm with rfl | hm2
      · exact absurd (hid ▸ hx) hd
      · exact ih hd ⟨m, hm2, hid⟩
    · simp only [dedupFirstAux, if_neg hx]
      by_cases hdx : x._id = d
      · rw [List.countP_cons_of_pos _ _ (by simpa using hdx)]
        have hzero : (dedupFirstAux xs (x._id :: seen)).countP (fun m => m._id == d) = 0 := by
          rw [List.countP_eq_zero]
          intro m hm
          have := (mem_dedupFirstAux hm).2
          simp only [beq_iff_eq]
          intro hc
          exact this (by rw [hc, ← hdx]; exact List.mem_cons_self _ _)
        omega
      · rw [List.countP_cons_of_neg _ _ (by simpa using hdx)]
        rcases h with ⟨m, hm, hid⟩
        rcases List.mem_cons.1 hm with rfl | hm2
        · exact absurd hid hdx
        · have hd2 : d ∉ x._id :: seen := by
            intro hc
            rcases List.mem_cons.1 hc with hc1 | hc2
            · exact hdx hc1.symm
            · exact hd hc2
          exact ih hd2 ⟨m, hm2, hid⟩

theorem mem_left_of_mem_dedupFirstAux_append {m : SyncMessage} :
    ∀ {l₁ l₂ : List SyncMessage} {seen : List String},
      m ∈ dedupFirstAux (l₁ ++ l₂) seen → (∃ e ∈ l₁, e._id = m._id) → m ∈ l₁ := by
  intro l₁ l₂ seen hm hex
  rw [dedupFirstAux_append] at hm
  rcases List.mem_append.1 hm with h | h
  · exact (mem_dedupFirstAux h).1
  · exfalso
    have hns := (mem_dedupFirstAux h).2
    exact hns (mem_seenAfter.2 (Or.inr hex))

end Chat

namespace Chat

/-! ## Claim theorems -/

/-- C5 counterexample: the poller claim fails on the code.  With one fetch
outstanding (`inFlight = 1`) and the subscriber enabled, the next interval
tick does not skip the cycle: it starts a second concurrent fetch
(`inFlight = 2`), because `poll` checks only `enabled` and no in-flight
flag. -/
theorem polling_overlapping_fetch_cex :
    intervalTick ⟨true, 1⟩ = ⟨true, 2⟩ ∧ intervalTick ⟨true, 1⟩ ≠ ⟨true, 1⟩ := by
  decide

/-- C5 amended: every interval tick that finds the subscriber enabled starts
a new fetch cycle, even while a prior fetch is still outstanding; overlapping
cycles are possible because `usePolling` has no single-flight guard. -/
theorem polling_tick_always_starts_fetch (s : PollerState) (h : s.enabled = true) :
    (intervalTick s).inFlight = s.inFlight + 1 := by
  simp [intervalTick, poll, h]

/-- C5 amended, witness at the state enabled with no outstanding fetch. -/
theorem polling_tick_always_starts_fetch_witness :
    (⟨true, 0⟩ : PollerState).enabled = true ∧ (intervalTick ⟨true, 0⟩).inFlight = 0 + 1 :=
  ⟨rfl, polling_tick_always_starts_fetch ⟨true, 0⟩ rfl⟩

/-- C6 counterexample: the cache-set claim fails on the code.  Storing a
101-element newest-first list keeps 100 entries, but the kept entries are
the 100 oldest: the most recent message (creation time 100) is evicted while
the oldest (creation time 0) is kept, because `slice(-100)` keeps the tail
of the list. -/
theorem setCache_drops_newest_cex :
    ((MessageCache.setCache ⟨[]⟩ "c" newestFirst101).getCache "c").length = 100 ∧
    cacheMsgAt 100 ∈ newestFirst101 ∧
    cacheMsgAt 100 ∉ (MessageCache.setCache ⟨[]⟩ "c" newestFirst101).getCache "c" ∧
    cacheMsgAt 0 ∈ (MessageCache.setCache ⟨[]⟩ "c" newestFirst101).getCache "c" := by
  decide

/-- C6 amended: for every conversation and list, the cache set operation
stores at most 100 entries, keeping exactly the last 100 elements of the
supplied list (`slice(-100)`) and evicting from the front; on the
newest-first lists the callers supply, the entries kept are the oldest by
creation time, not the most recent. -/
theorem setCache_keeps_last_hundred (c : MessageCache) (conversationId : String)
    (messages : List MessageSyncData) :
    (MessageCache.setCache c conversationId messages).getCache conversationId =
      messages.drop (messages.length - 100) ∧
    ((MessageCache.setCache c conversationId messages).getCache conversationId).length ≤ 100 := by
  constructor
  · simp [MessageCache.setCache, MessageCache.getCache, jsSliceLastHundred, List.lookup]
  · simp only [MessageCache.setCache, MessageCache.getCache, jsSliceLastHundred, List.lookup,
      beq_self_eq_true, Option.getD_some, List.length_drop]
    omega

/-- The canonical sorted pair does not depend on the argument order. -/
theorem sortPair_comm (a b : String) : sortPair a b = sortPair b a := by
  unfold sortPair
  by_cases h1 : a ≤ b
  · by_cases h2 : b ≤ a
    · have hab : a = b := le_antisymm h1 h2
      subst hab; rfl
    · rw [if_pos h1, if_neg h2]
  · by_cases h2 : b ≤ a
    · rw [if_neg h1, if_pos h2]
    · rcases le_total a b with h | h
      · exact absurd h h1
      · exact absurd h h2

/-- The pair ("a", "b") is already in canonical order. -/
theorem sortPair_ab : sortPair "a" "b" = ["a", "b"] := by
  unfold sortPair
  rw [if_pos (String.le_iff_toList_le.mpr (by decide))]

/-- C7: `getOrCreate` is commutative — for distinct users the pair is
canonicalized by sorting before lookup and creation, so calling with the
arguments in either order performs the same lookup and the same creation and
returns the same conversation. -/
theorem getOrCreateConversation_comm (store : ConversationStore) (a b : String)
    (_h : a ≠ b) :
    findOrCreateConversation store store a b = findOrCreateConversation store store b a := by
  unfold findOrCreateConversation
  rw [sortPair_comm]

/-- C7 witness: a fresh store and the users "a" and "b". -/
theorem getOrCreateConversation_comm_witness :
    ("a" : String) ≠ "b" ∧
    findOrCreateConversation ⟨[], 0⟩ ⟨[], 0⟩ "a" "b" =
      findOrCreateConversation ⟨[], 0⟩ ⟨[], 0⟩ "b" "a" :=
  ⟨by decide, getOrCreateConversation_comm ⟨[], 0⟩ "a" "b" (by decide)⟩

/-- C4 counterexample: the conflict-absorption claim fails on the code.
Under the race — the pair absent at lookup time, created concurrently before
the save — `findOrCreateConversation` surfaces the duplicate-key error to
its caller instead of fetching and returning the existing conversation,
because the save is not wrapped in any try/catch. -/
theorem findOrCreate_conflict_surfaced_cex :
    findOrCreateConversation ⟨[], 0⟩ ⟨[convAB], 1⟩ "a" "b" =
      Except.error DbError.duplicateKey := by
  simp only [findOrCreateConversation, sortPair_ab]
  rfl

/-- C4 amended: when creating a conversation for a canonical pair fails with
the uniqueness-constraint violation (a concurrent call created it first),
`getOrCreate` does not absorb the conflict: the constraint error propagates
to the caller, which never receives the existing conversation from this
call. -/
theorem findOrCreate_conflict_propagates (lookupStore saveStore : ConversationStore)
    (a b : String)
    (h1 : lookupStore.convs.find? (pairMatches (sortPair a b)) = none)
    (h2 : saveStore.convs.any (fun c0 => c0.participantIds == sortPair a b) = true) :
    findOrCreateConversation lookupStore saveStore a b =
      Except.error DbError.duplicateKey := by
  simp only [findOrCreateConversation, saveConversation]
  rw [h1]
  simp [h2]

/-- C4 amended, witness: empty store at lookup, the pair present at save. -/
theorem findOrCreate_conflict_propagates_witness :
    findOrCreateConversation ⟨[], 0⟩ ⟨[convAB], 1⟩ "a" "b" =
      Except.error DbError.duplicateKey :=
  findOrCreate_conflict_propagates ⟨[], 0⟩ ⟨[convAB], 1⟩ "a" "b" rfl
    (by rw [sortPair_ab]; decide)

/-- C2: evaluating the mark-message-seen route at its intended input.  The
recipient "b" calls the route on the unseen message "m0" addressed to them:
instead of the claimed 200 response with status SEEN and a non-null seenAt,
the handler answers 500 and leaves the message untouched, because the
recipient check calls `.equals` on a primitive string and the thrown
TypeError lands in the catch-all.  The idempotent `alreadySeen` path is
unreachable for the same reason. -/
theorem patch_mark_seen_throws_cex :
    patchMarkMessageSeen stMarkSeen "b" "m0" 7 =
      (PatchResult.err 500 "Failed to mark message as seen", stMarkSeen) ∧
    msgAtoB.recipientId = "b" ∧ msgAtoB.status ≠ MessageStatus.seen := by
  decide

/-- C9: every message starts with the seen-timestamp invariant (seenAt set
iff status SEEN) and every status-changing operation — markAsSeen,
markAsDelivered, and the per-document step of the batch markMessagesAsSeen —
preserves the invariant and moves the status only forward along
SENT → DELIVERED → SEEN, never backward; the batch operation is exactly the
per-document step mapped over the log, and a freshly persisted message
satisfies the invariant. -/
theorem message_status_monotone (m : StoredMessage) (now : Nat) (cid uid : String)
    (msgs : List StoredMessage) (st : ServerState)
    (mcid sid rid ct : String) (img : Option String)
    (h : seenAtIffSeen m) :
    seenAtIffSeen (markAsSeen now m) ∧
    seenAtIffSeen (markAsDelivered now m) ∧
    seenAtIffSeen (markSeenBatchStep cid uid now m) ∧
    statusRank m.status ≤ statusRank (markAsSeen now m).status ∧
    statusRank m.status ≤ statusRank (markAsDelivered now m).status ∧
    statusRank m.status ≤ statusRank (markSeenBatchStep cid uid now m).status ∧
    markMessagesAsSeen cid uid now msgs = msgs.map (markSeenBatchStep cid uid now) ∧
    seenAtIffSeen (sendMessage st mcid sid rid ct img now).1 := by
  unfold seenAtIffSeen at h
  unfold seenAtIffSeen markAsSeen markAsDelivered markSeenBatchStep
  refine ⟨?_, ?_, ?_, ?_, ?_, ?_, rfl, ?_⟩
  · split_ifs with hc
    · simp
    · exact h
  · split_ifs with hc
    · rw [hc] at h
      simp_all
    · exact h
  · split_ifs with hc
    · simp
    · exact h
  · split_ifs with hc
    · simp only []
      cases hm : m.status <;> simp [statusRank]
    · exact Nat.le_refl _
  · split_ifs with hc
    · rw [hc]
      simp [statusRank]
    · exact Nat.le_refl _
  · split_ifs with hc
    · cases hm : m.status <;> simp [statusRank]
    · exact Nat.le_refl _
  · simp [sendMessage]

/-- C9 witness: a freshly sent message (status SENT, no seen timestamp). -/
theorem message_status_monotone_witness :
    seenAtIffSeen msgAtoB ∧
    (seenAtIffSeen (markAsSeen 3 msgAtoB) ∧
      seenAtIffSeen (markAsDelivered 3 msgAtoB) ∧
      seenAtIffSeen (markSeenBatchStep "c0" "b" 3 msgAtoB) ∧
      statusRank msgAtoB.status ≤ statusRank (markAsSeen 3 msgAtoB).status ∧
      statusRank msgAtoB.status ≤ statusRank (markAsDelivered 3 msgAtoB).status ∧
      statusRank msgAtoB.status ≤ statusRank (markSeenBatchStep "c0" "b" 3 msgAtoB).status ∧
      markMessagesAsSeen "c0" "b" 3 [msgAtoB] = [msgAtoB].map (markSeenBatchStep "c0" "b" 3) ∧
      seenAtIffSeen (sendMessage stSend "c0" "a" "b" "hi" none 3).1) :=
  ⟨by decide,
    message_status_monotone msgAtoB 3 "c0" "b" [msgAtoB] stSend "c0" "a" "b" "hi" none (by decide)⟩

/-- C10: a create-message request whose recipient is the authenticated
sender themselves (an existing user, with otherwise well-formed content) is
rejected with the validation error "Cannot create conversation with
yourself", and the server state — messages and conversations alike — is left
unchanged. -/
theorem post_self_recipient_rejected (st : ServerState) (sender content : String)
    (img : Option String) (cid : Option String) (now : Nat)
    (hu : sender ∈ st.users) (hs : sender ≠ "") (hc : content ≠ "")
    (ht : (jsTrim content).length ≠ 0) (hl : content.length ≤ 1000) :
    postMessages st sender sender content img cid now =
      (PostResult.err 400 "Cannot create conversation with yourself", st) := by
  unfold postMessages validateUsersExist
  rw [if_neg (by simp [hs, hc]), if_neg ht, if_neg (by omega),
      if_neg (not_not.mpr hu), if_neg (not_not.mpr hu), if_pos rfl]

/-- C10 witness: user "a" sending "hi" to themselves. -/
theorem post_self_recipient_rejected_witness :
    postMessages stSend "a" "a" "hi" none none 0 =
      (PostResult.err 400 "Cannot create conversation with yourself", stSend) :=
  post_self_recipient_rejected stSend "a" "hi" none none 0 (by decide) (by decide)
    (by decide) (by decide) (by decide)

/-- C1 counterexample: the collision-preference claim fails on the code.
Merging an existing copy of identity "1" with a fresher incoming (server)
copy of the same identity yields exactly the existing copy: the dedup filter
keeps the first occurrence in `[...existing, ...incoming]`, so the existing
entry wins, not the incoming one. -/
theorem merge_prefers_existing_cex :
    mergeAndDeduplicate [syncOld] [syncNew] = [syncOld] ∧ syncOld ≠ syncNew := by
  decide

/-- C1 amended: when an existing entry and an incoming entry share an
identity, the merged result contains exactly one entry for that identity,
and that entry is the existing (locally held) copy — the first occurrence in
the concatenation — rather than the incoming (server) one. -/
theorem merge_collision_existing_entry_wins (existing incoming : List SyncMessage)
    (d : String) (he : ∃ e ∈ existing, e._id = d) (_hi : ∃ i ∈ incoming, i._id = d) :
    (mergeAndDeduplicate existing incoming).countP (fun m => m._id == d) = 1 ∧
    ∀ m ∈ mergeAndDeduplicate existing incoming, m._id = d → m ∈ existing := by
  have hperm : List.Perm (mergeAndDeduplicate existing incoming)
      (dedupFirstAux (existing ++ incoming) []) :=
    List.perm_insertionSort createdGe _
  constructor
  · rw [hperm.countP_eq]
    refine countP_dedupFirstAux_eq_one (by simp) ?_
    rcases he with ⟨e, hmem, hid⟩
    exact ⟨e, List.mem_append_left _ hmem, hid⟩
  · intro m hm hd
    have hm2 : m ∈ dedupFirstAux (existing ++ incoming) [] := hperm.mem_iff.mp hm
    refine mem_left_of_mem_dedupFirstAux_append hm2 ?_
    rcases he with ⟨e, hmem, hid⟩
    exact ⟨e, hmem, by rw [hid, hd]⟩

/-- C1 amended, witness: the concrete colliding pair of copies. -/
theorem merge_collision_existing_entry_wins_witness :
    (mergeAndDeduplicate [syncOld] [syncNew]).countP (fun m => m._id == "1") = 1 ∧
    ∀ m ∈ mergeAndDeduplicate [syncOld] [syncNew], m._id = "1" → m ∈ [syncOld] :=
  merge_collision_existing_entry_wins [syncOld] [syncNew] "1" (by decide) (by decide)

/-- C8: merging the same incoming set a second time is a no-op — for all
message sets A and B, merge(merge(A, B), B) equals merge(A, B), in both
membership and order: every identity of B is already represented in the
first merge, so the second dedup keeps exactly the first merge's entries,
and re-sorting an already sorted list with the stable insertion leaves it
unchanged. -/
theorem merge_idempotent (A B : List SyncMessage) :
    mergeAndDeduplicate (mergeAndDeduplicate A B) B = mergeAndDeduplicate A B := by
  set M := mergeAndDeduplicate A B with hM
  have hperm : List.Perm M (dedupFirstAux (A ++ B) []) := by
    rw [hM]; exact List.perm_insertionSort createdGe _
  have hpair : M.Pairwise (fun a b => a._id ≠ b._id) :=
    (hperm.pairwise_iff fun hab he => hab he.symm).mpr (pairwise_ne_dedupFirstAux (A ++ B) [])
  have hM1 : dedupFirstAux M [] = M := dedupFirstAux_eq_self hpair (by intro m _; simp)
  have hcov : ∀ b ∈ B, b._id ∈ seenAfter M [] := by
    intro b hb
    refine mem_seenAfter.mpr (Or.inr ?_)
    obtain ⟨m, hm, hid⟩ :=
      @exists_mem_dedupFirstAux_of_id b._id (A ++ B) [] (by simp)
        ⟨b, List.mem_append_right _ hb, rfl⟩
    exact ⟨m, hperm.mem_iff.mpr hm, hid⟩
  have hded : dedupFirstAux (M ++ B) [] = M := by
    rw [dedupFirstAux_append, hM1, dedupFirstAux_eq_nil_of_seen hcov, List.append_nil]
  have hsorted : List.Sorted createdGe M := by
    rw [hM]; exact List.sorted_insertionSort createdGe _
  show sortByCreatedAtDesc (dedupFirst (M ++ B)) = M
  unfold dedupFirst
  rw [hded]
  exact hsorted.insertionSort_eq

/-- C3 counterexample: the both-participants validation claim fails on the
code.  With conversation "c0" between "a" and "b" only, user "a" sends to
the existing user "c" while supplying conversationId "c0": the request is
accepted with 201 and the message is persisted, although the recipient "c"
is not a participant of "c0" — the send path checks only the sender's
membership. -/
theorem send_nonparticipant_recipient_cex :
    (postMessages stSend "a" "c" "hi" none (some "c0") 5).1 = PostResult.ok 201 msgAtoC ∧
    (postMessages stSend "a" "c" "hi" none (some "c0") 5).2.messages = [msgAtoC] ∧
    msgAtoC.recipientId = "c" ∧
    isUserParticipant stSend "c0" "c" = false := by
  decide

/-- The left argument always belongs to its canonical pair. -/
theorem mem_sortPair_left (a b : String) : a ∈ sortPair a b := by
  unfold sortPair
  split_ifs <;> simp

/-- A same-store `findOrCreateConversation` that succeeds returns a
conversation that is in the resulting store and has the first user among its
participants. -/
theorem findOrCreate_ok_same_store (s : ConversationStore) (a b : String)
    (conv : Conversation) (cs : ConversationStore)
    (h : findOrCreateConversation s s a b = Except.ok (conv, cs)) :
    conv ∈ cs.convs ∧ a ∈ conv.participantIds := by
  simp only [findOrCreateConversation] at h
  cases hf : List.find? (pairMatches (sortPair a b)) s.convs with
  | some c =>
    rw [hf] at h
    simp only [Except.ok.injEq, Prod.mk.injEq] at h
    obtain ⟨rfl, rfl⟩ := h
    refine ⟨List.mem_of_find?_eq_some hf, ?_⟩
    have hp := List.find?_some hf
    unfold pairMatches at hp
    rw [Bool.and_eq_true] at hp
    have hall := (List.all_eq_true.mp hp.2) a (mem_sortPair_left a b)
    simpa using hall
  | none =>
    rw [hf] at h
    unfold saveConversation at h
    split_ifs at h with hdup
    simp only [Except.ok.injEq, Prod.mk.injEq] at h
    obtain ⟨rfl, rfl⟩ := h
    constructor
    · exact List.mem_append_right _ (List.mem_singleton.mpr rfl)
    · exact mem_sortPair_left a b

/-- A successful `getConversationForUser` returns a stored conversation with
the requested id in which the user participates. -/
theorem getConversationForUser_some (st : ServerState) (cid uid : String)
    (c : Conversation) (h : getConversationForUser st cid uid = some c) :
    c ∈ st.convStore.convs ∧ c.id = cid ∧ uid ∈ c.participantIds := by
  unfold getConversationForUser at h
  cases hf : List.find? (fun c0 => c0.id == cid) st.convStore.convs with
  | none =>
    simp only [hf] at h
    exact Option.noConfusion h
  | some c0 =>
    simp only [hf] at h
    split_ifs at h with hp
    simp only [Option.some.injEq] at h
    subst h
    refine ⟨List.mem_of_find?_eq_some hf, ?_, ?_⟩
    · have := List.find?_some hf
      simpa using this
    · simpa using hp

/-- `sendMessage` stamps the requested conversation id on the persisted
message and only touches the conversations' last-message pointers: every
stored conversation survives with its id and participants unchanged. -/
theorem sendMessage_convs (st : ServerState) (cid sid rid ct : String)
    (img : Option String) (now : Nat) (c : Conversation)
    (hc : c ∈ st.convStore.convs) :
    (sendMessage st cid sid rid ct img now).1.conversationId = cid ∧
    ∃ c2 ∈ (sendMessage st cid sid rid ct img now).2.convStore.convs,
      c2.id = c.id ∧ c2.participantIds = c.participantIds := by
  refine ⟨rfl, ?_⟩
  unfold sendMessage
  refine ⟨if c.id == cid then
      { c with lastMessage := some (toString st.nextMsgOid), lastMessageTime := some now }
    else c, List.mem_map_of_mem _ hc, ?_, ?_⟩ <;> split_ifs <;> rfl

/-- C3 amended: the send operation rejects the request whenever the sender
is not a participant of the supplied conversation (400, nothing persisted),
and whenever a message is persisted its sender belongs to the message's
conversation — but the recipient's membership is never checked, so a message
may be persisted whose recipient is not a participant. -/
theorem send_validates_sender_participation :
    (∀ (st : ServerState) (sender recipient content : String) (img : Option String)
        (cid : String) (now : Nat),
        cid ≠ "" → getConversationForUser st cid sender = none →
        ∃ e, postMessages st sender recipient content img (some cid) now =
          (PostResult.err 400 e, st)) ∧
    (∀ (st : ServerState) (sender recipient content : String) (img : Option String)
        (cidOpt : Option String) (now : Nat) (code : Nat) (m : StoredMessage)
        (st2 : ServerState),
        postMessages st sender recipient content img cidOpt now =
          (PostResult.ok code m, st2) →
        ∃ c ∈ st2.convStore.convs, c.id = m.conversationId ∧ sender ∈ c.participantIds) := by
  constructor
  · intro st sender recipient content img cid now hcid hconv
    unfold postMessages
    by_cases h1 : recipient = "" ∨ content = ""
    · rw [if_pos h1]; exact ⟨_, rfl⟩
    · rw [if_neg h1]
      by_cases h2 : (jsTrim content).length = 0
      · rw [if_pos h2]; exact ⟨_, rfl⟩
      · rw [if_neg h2]
        by_cases h3 : content.length > 1000
        · rw [if_pos h3]; exact ⟨_, rfl⟩
        · rw [if_neg h3]
          cases hv : validateUsersExist st sender recipient with
          | some e => simp only [hv]; exact ⟨e, rfl⟩
          | none =>
            simp only [hv, if_neg hcid, hconv]
            exact ⟨_, rfl⟩
  · intro st sender recipient content img cidOpt now code m st2 h
    unfold postMessages at h
    split_ifs at h with h1 h2 h3
    · simp at h
    · simp at h
    · simp at h
    · cases hv : validateUsersExist st sender recipient with
      | some e => simp only [hv] at h; simp at h
      | none =>
        cases cidOpt with
        | none =>
          simp only [hv] at h
          cases hf : findOrCreateConversation st.convStore st.convStore sender recipient with
          | error e2 => simp only [hf] at h; simp at h
          | ok pr =>
            obtain ⟨conv, cs⟩ := pr
            simp only [hf, Prod.mk.injEq, PostResult.ok.injEq] at h
            obtain ⟨⟨hcode, hm⟩, hst2⟩ := h
            obtain ⟨hmem, hpart⟩ := findOrCreate_ok_same_store _ _ _ _ _ hf
            have hsm := sendMessage_convs { st with convStore := cs } conv.id sender
              recipient (jsTrim content) img now conv hmem
            obtain ⟨c2, hc2mem, hc2id, hc2parts⟩ := hsm.2
            refine ⟨c2, ?_, ?_, ?_⟩
            · rw [← hst2]; exact hc2mem
            · rw [hc2id, ← hm, hsm.1]
            · rw [hc2parts]; exact hpart
        | some cid =>
          simp only [hv] at h
          split_ifs at h with hcid0
          · cases hf : findOrCreateConversation st.convStore st.convStore sender recipient with
            | error e2 => simp only [hf] at h; simp at h
            | ok pr =>
              obtain ⟨conv, cs⟩ := pr
              simp only [hf, Prod.mk.injEq, PostResult.ok.injEq] at h
              obtain ⟨⟨hcode, hm⟩, hst2⟩ := h
              obtain ⟨hmem, hpart⟩ := findOrCreate_ok_same_store _ _ _ _ _ hf
              have hsm := sendMessage_convs { st with convStore := cs } conv.id sender
                recipient (jsTrim content) img now conv hmem
              obtain ⟨c2, hc2mem, hc2id, hc2parts⟩ := hsm.2
              refine ⟨c2, ?_, ?_, ?_⟩
              · rw [← hst2]; exact hc2mem
              · rw [hc2id, ← hm, hsm.1]
              · rw [hc2parts]; exact hpart
          · cases hg : getConversationForUser st cid sender with
            | none => simp only [hg] at h; simp at h
            | some c =>
              simp only [hg, Prod.mk.injEq, PostResult.ok.injEq] at h
              obtain ⟨⟨hcode, hm⟩, hst2⟩ := h
              obtain ⟨hmem, hcidm, hpart⟩ := getConversationForUser_some st cid sender c hg
              have hsm := sendMessage_convs st cid sender recipient (jsTrim content)
                img now c hmem
              obtain ⟨c2, hc2mem, hc2id, hc2parts⟩ := hsm.2
              refine ⟨c2, ?_, ?_, ?_⟩
              · rw [← hst2]; exact hc2mem
              · rw [hc2id, hcidm, ← hm, hsm.1]
              · rw [hc2parts]; exact hpart

/-- C3 amended, witness: the sender "c" is not a participant of "c0", so
their request is rejected with 400 and the state is unchanged; and the
counterexample's accepted request indeed carries a sender who participates. -/
theorem send_validates_sender_participation_witness :
    (∃ e, postMessages stSend "c" "b" "hi" none (some "c0") 5 =
      (PostResult.err 400 e, stSend)) ∧
    (∃ c ∈ (postMessages stSend "a" "c" "hi" none (some "c0") 5).2.convStore.convs,
      c.id = msgAtoC.conversationId ∧ "a" ∈ c.participantIds) :=
  ⟨send_validates_sender_participation.1 stSend "c" "b" "hi" none "c0" 5 (by decide)
      (by decide),
    send_validates_sender_participation.2 stSend "a" "c" "hi" none (some "c0") 5 201
      msgAtoC (postMessages stSend "a" "c" "hi" none (some "c0") 5).2 (by decide)⟩

end Chat
